import Mathlib

/-!
Verification of the frame-classification and cross-game statistics engine
of slippost.py (melee-stats).

The external replay-parsing library (py-slippi) is modelled only at its
interface boundary (buttons bitmask, action states, frame/port/metadata
shape), as the spec scopes it out of the core.  Python dicts are modelled
extensionally: an association list where construction order is relevant to
the source, or a function into Option where only lookup/equality is
observable.  A Python Counter built by counting hashable observations is
modelled as a Multiset (counts are non-negative and Counter addition adds
counts pointwise); an operation that can raise (IndexError on an empty
list, KeyError on a missing dict key) returns Option, with none as the
raised exception.
-/

/-- The physical controller buttons of the external library, in enum
definition order (ascending bitmask value). -/
inductive Button where
  | DPAD_LEFT
  | DPAD_RIGHT
  | DPAD_DOWN
  | DPAD_UP
  | Z
  | R
  | L
  | A
  | B
  | X
  | Y
  | START
deriving DecidableEq

/-- The bitmask value of each physical button (external library). -/
def Button.value : Button → Nat
  | .DPAD_LEFT => 0x0001
  | .DPAD_RIGHT => 0x0002
  | .DPAD_DOWN => 0x0004
  | .DPAD_UP => 0x0008
  | .Z => 0x0010
  | .R => 0x0020
  | .L => 0x0040
  | .A => 0x0100
  | .B => 0x0200
  | .X => 0x0400
  | .Y => 0x0800
  | .START => 0x1000

/-- The display name of each physical button (external library). -/
def Button.name : Button → String
  | .DPAD_LEFT => "DPAD_LEFT"
  | .DPAD_RIGHT => "DPAD_RIGHT"
  | .DPAD_DOWN => "DPAD_DOWN"
  | .DPAD_UP => "DPAD_UP"
  | .Z => "Z"
  | .R => "R"
  | .L => "L"
  | .A => "A"
  | .B => "B"
  | .X => "X"
  | .Y => "Y"
  | .START => "START"

/-- All buttons in enum definition order (ascending bitmask value). -/
def allButtons : List Button :=
  [.DPAD_LEFT, .DPAD_RIGHT, .DPAD_DOWN, .DPAD_UP, .Z, .R, .L, .A, .B, .X, .Y, .START]

/-- The held-buttons bitmask of a frame's pre-state: which physical
buttons are currently held. -/
structure ButtonsState where
  physical : Button → Bool

/-- The external library's pressed(): the list of held buttons, obtained
by filtering the enum members (in definition order) against the bitmask. -/
def ButtonsState.pressed (bs : ButtonsState) : List Button :=
  allButtons.filter bs.physical

/-- Fine-grained action states of the external library: the states named
in STATE_GROUPS, plus a representative constructor for every other state
(carrying its display name). -/
inductive ActionState where
  | WAIT
  | SQUAT_WAIT
  | WALK_SLOW
  | WALK_MIDDLE
  | WALK_FAST
  | DASH
  | otherState (nm : String)
deriving DecidableEq

/-- The display name of a fine-grained action state (external library). -/
def ActionState.stName : ActionState → String
  | .WAIT => "WAIT"
  | .SQUAT_WAIT => "SQUAT_WAIT"
  | .WALK_SLOW => "WALK_SLOW"
  | .WALK_MIDDLE => "WALK_MIDDLE"
  | .WALK_FAST => "WALK_FAST"
  | .DASH => "DASH"
  | .otherState nm => nm

/-- In-game characters of the external library: representatives plus a
catch-all carrying a display name. -/
inductive Character where
  | MarioChar
  | MARTH
  | otherChar (nm : String)
deriving DecidableEq

/-- The display name of a character (external library). -/
def Character.chName : Character → String
  | .MarioChar => "MARIO"
  | .MARTH => "MARTH"
  | .otherChar nm => nm

/-- pre sub-record of a Port Data record: state as provided to the
frame's input; only the held buttons are read. -/
structure PreData where
  buttons : ButtonsState

/-- post sub-record of a Port Data record: fine-grained state and the
remaining stun-duration counter. -/
structure PostData where
  state : ActionState
  hit_stun : Int

/-- Port Data: the leader-level pre/post pair for one slot in one frame. -/
structure PortData where
  pre : PreData
  post : PostData

/-- One occupied port of a frame; only leader data is read. -/
structure Port where
  leader : PortData

/-- One frame: per-slot port data, none for an empty/absent slot. -/
structure Frame where
  ports : List (Option Port)

/-- A Metadata player record: display name and the character-usage
mapping (insertion-ordered association list, character to frame count). -/
structure Player where
  netplay_name : String
  characters : List (Character × Nat)

/-- Match metadata: per-slot player records, none for an absent slot. -/
structure Metadata where
  players : List (Option Player)

/-- A Match: ordered frames plus metadata. -/
structure Game where
  frames : List Frame
  metadata : Metadata

/-! ## Generic helpers for the embedding -/

/-- Python str.join with separator "," : the first element, then each
further element preceded by a comma. -/
def joinRest : List String → String
  | [] => ""
  | s :: rest => "," ++ (s ++ joinRest rest)

/-- Python ",".join(l). -/
def joinComma : List String → String
  | [] => ""
  | s :: rest => s ++ joinRest rest

/-- The comparison Python sorted() uses on buttons: ascending bitmask
value. -/
def btnLe (a b : Button) : Prop := a.value ≤ b.value

instance : DecidableRel btnLe := fun a b => inferInstanceAs (Decidable (a.value ≤ b.value))

instance : IsTotal Button btnLe := ⟨fun a b => Nat.le_total a.value b.value⟩

instance : IsTrans Button btnLe := ⟨fun _ _ _ h h' => Nat.le_trans h h'⟩

/-- Python sorted() on a list of buttons (ascending bitmask value). -/
def sortButtons (l : List Button) : List Button := List.insertionSort btnLe l

/-- A Python list comprehension whose body may raise: none as soon as one
element raises, otherwise the list of results. -/
def mapOpt (f : α → Option β) : List α → Option (List β)
  | [] => some []
  | a :: as =>
    match f a, mapOpt f as with
    | some b, some bs => some (b :: bs)
    | _, _ => none

/-- First-seen-order deduplication (Python dict/Counter key order),
with an accumulator of keys already seen. -/
def firstSeenAux (seen : List String) : List String → List String
  | [] => []
  | x :: xs => if x ∈ seen then firstSeenAux seen xs else x :: firstSeenAux (x :: seen) xs

/-- The keys of Counter(l) in first-seen order. -/
def firstSeen (l : List String) : List String := firstSeenAux [] l

/-! ## Embedding of slippost.py -/

/-- STATE_GROUPS: the static partition of fine-grained states into named
groups, an insertion-ordered association list of (frozen member set,
group label). -/
def STATE_GROUPS : List (List ActionState × String) :=
  [([.WAIT, .SQUAT_WAIT], "WAIT"),
   ([.WALK_FAST, .WALK_MIDDLE, .WALK_SLOW], "WALK"),
   ([.DASH], "DASH")]

/-- _fmt_buttons, on the list-input path taken by _buttons: a non-empty
list joins the names of the value-sorted buttons with commas; an empty
list is the "(no input)" sentinel.  (The single-enum elif branch is
unreachable from _buttons, whose argument is always a list.) -/
def fmt_buttons : List Button → String
  | [] => "(no input)"
  | bs => joinComma ((sortButtons bs).map Button.name)

/-- _buttons: format the held buttons of the pre-state. -/
def buttonsHandler (port_data : PortData) : String :=
  fmt_buttons port_data.pre.buttons.pressed

/-- _hitstun_buttons: the buttons value while stunned, else the
"(not in hitstun)" sentinel. -/
def hitstunButtonsHandler (port_data : PortData) : String :=
  if port_data.post.hit_stun > 0 then buttonsHandler port_data else ("(not in hitstun)")

/-- The lookup loop of _state_group over the STATE_GROUPS items. -/
def stateGroupLoop : List (List ActionState × String) → ActionState → String
  | [], _ => "OTHER"
  | (groupset, nm) :: rest, s => if s ∈ groupset then nm else stateGroupLoop rest s

/-- _state_group: the group label of the post state, or "OTHER". -/
def stateGroupHandler (port_data : PortData) : String :=
  stateGroupLoop STATE_GROUPS port_data.post.state

/-- _state: the fine-grained post state's display name, verbatim. -/
def stateHandler (port_data : PortData) : String :=
  port_data.post.state.stName

/-- FRAME_DATA_HANDLERS: the registered feature extractors, in insertion
order. -/
def FRAME_DATA_HANDLERS : List (String × (PortData → String)) :=
  [("buttons", buttonsHandler),
   ("hitstun_buttons", hitstunButtonsHandler),
   ("state_group", stateGroupHandler),
   ("full_state", stateHandler)]

/-- _handle_frame_port: apply every registered handler to the port's
leader data, giving the per-port feature map (insertion-ordered dict). -/
def handle_frame_port (port : Port) : List (String × String) :=
  FRAME_DATA_HANDLERS.map (fun h => (h.1, h.2 port.leader))

/-- _handle_frame: the per-slot feature maps of one frame, keyed by slot
index, restricted to present (non-empty) slots. -/
def handle_frame (frame : Frame) : List (Nat × List (String × String)) :=
  frame.ports.enum.filterMap (fun ip => ip.2.map (fun fp => (ip.1, handle_frame_port fp)))

/-- _summarize_player_frames (pure part; the log branch only prints):
stats_keys is taken from frame_stats[0] (IndexError, hence none, on an
empty list), and each axis's Counter counts that key's value over every
framewise map (KeyError, hence none, on a missing key). -/
def summarize_player_frames (frame_stats : List (List (String × String))) :
    Option (List (String × Multiset String)) :=
  match frame_stats with
  | [] => none
  | fs0 :: rest =>
    mapOpt
      (fun k =>
        (mapOpt (fun fs => List.lookup k fs) (fs0 :: rest)).map
          (fun vals => (k, (↑vals : Multiset String))))
      (fs0.map Prod.fst)

/-- game_summary: classify every frame, then for the i-th present
metadata player build the player key from the display name and
first-listed character (IndexError, hence none, when the character map is
empty), gather that player's per-frame feature map as framewise[f][i]
(KeyError, hence none, when slot key i is absent), and summarize. -/
def game_summary (g : Game) : Option (List (String × List (String × Multiset String))) :=
  let framewise_summaries := g.frames.map handle_frame
  mapOpt
    (fun ip =>
      ((ip.2.characters.map Prod.fst).head?).bind (fun ch =>
        let player_key := ip.2.netplay_name ++ " (" ++ ch.chName ++ ")"
        (mapOpt (fun f => List.lookup ip.1 f) framewise_summaries).bind (fun frame_stats =>
          (summarize_player_frames frame_stats).map (fun summary => (player_key, summary)))))
    (g.metadata.players.filterMap id).enum

/-- One player's per-axis statistics: an extensional Python dict from
feature-axis name to frequency table (Counter as Multiset). -/
def PlayerStats : Type := String → Option (Multiset String)

/-- The empty per-player dict {} used as merge default. -/
def emptyPlayerStats : PlayerStats := fun _ => none

/-- Aggregate Statistics: an extensional Python dict from Player Key to
per-axis statistics. -/
def AggStats : Type := String → Option PlayerStats

/-- The empty Aggregate Statistics {} (the batch loop's initial value). -/
def emptyAggStats : AggStats := fun _ => none

/-- _merge_player_stats: over the union of the axis-name key sets, the
Counter sum of both sides' tables, a missing side defaulting to the empty
Counter. -/
def merge_player_stats (first second : PlayerStats) : PlayerStats :=
  fun stat_name =>
    match first stat_name, second stat_name with
    | none, none => none
    | f?, s? => some (f?.getD 0 + s?.getD 0)

/-- merge_game_stats: over the union of the Player Key sets, merge the
two sides' per-player stats, a missing side defaulting to {}. -/
def merge_game_stats (first second : AggStats) : AggStats :=
  fun player_name =>
    match first player_name, second player_name with
    | none, none => none
    | f?, s? => some (merge_player_stats (f?.getD emptyPlayerStats) (s?.getD emptyPlayerStats))

/-- The items of Counter(counter) in first-seen key order, with counts. -/
def counterItems (counter : List String) : List (String × Nat) :=
  (firstSeen counter).map (fun k => (k, counter.count k))

/-- counter.most_common(): items sorted by count descending; the sort is
stable, so ties keep first-seen (insertion) order. -/
def mostCommon (counter : List String) : List (String × Nat) :=
  List.insertionSort (fun a b => b.2 < a.2) (counterItems counter)

/-- The per-axis body of _print_player_stats, for one Counter presented
by its list of observations: total = sum(counter.values()), then for each
of most_common()[:10] the percentage 100*count/total is computed --
dividing by total, so none (ZeroDivisionError) if such a line is rendered
while total is zero. -/
def print_counter_lines (counter : List String) : Option (List ℚ) :=
  let total := (counterItems counter).map Prod.snd |>.sum
  mapOpt
    (fun it => if total = 0 then none else some (100 * (it.2 : ℚ) / (total : ℚ)))
    ((mostCommon counter).take 10)

/-- load_all: glob the directory pattern (the resulting path list is a
parameter, as file discovery is external), keep only the first five
matches, and yield each game that loads, skipping load failures (load is
a parameter returning none on failure). -/
def load_all (glob_result : List String) (load : String → Option Game) : List Game :=
  (glob_result.take 5).filterMap load

/-! ## Concrete sample data -/

/-- A bitmask with no button held. -/
def maskNone : Button → Bool := fun _ => false

/-- A bitmask holding A and L. -/
def maskAL : Button → Bool := fun b =>
  match b with
  | .A => true
  | .L => true
  | _ => false

/-- A quiet port data record: no buttons, WAIT, no stun. -/
def pdWait : PortData := ⟨⟨⟨maskNone⟩⟩, ⟨.WAIT, 0⟩⟩

/-- A port data record in hitstun: A and L held, DASH, stun counter 4. -/
def pdDashStun : PortData := ⟨⟨⟨maskAL⟩⟩, ⟨.DASH, 4⟩⟩

/-- A one-slot frame occupied by the quiet port. -/
def frameW : Frame := ⟨[some ⟨pdWait⟩]⟩

/-- A metadata player on MARTH. -/
def playerW : Player := ⟨"markvan", [(.MARTH, 2)]⟩

/-- A second metadata player on MARIO. -/
def playerShep : Player := ⟨"Shep", [(.MarioChar, 1)]⟩

/-- A two-frame single-player match. -/
def gW : Game := ⟨[frameW, frameW], ⟨[some playerW]⟩⟩

/-- A zero-frame match with one present player. -/
def gZero : Game := ⟨[], ⟨[some playerW]⟩⟩

/-- A one-frame match whose occupied slots are 0 and 2 with slot 1
empty, consistently in metadata and in the frame. -/
def gNC : Game :=
  ⟨[⟨[some ⟨pdWait⟩, none, some ⟨pdWait⟩]⟩], ⟨[some playerShep, none, some playerW]⟩⟩

/-- The per-axis summary game_summary produces for gW's player. -/
def sW : List (String × Multiset String) :=
  [("buttons", ↑["(no input)", "(no input)"]),
   ("hitstun_buttons", ↑["(not in hitstun)", "(not in hitstun)"]),
   ("state_group", ↑["WAIT", "WAIT"]),
   ("full_state", ↑["WAIT", "WAIT"])]

/-- The full summary game_summary produces for gW. -/
def sumW : List (String × List (String × Multiset String)) := [("markvan (MARTH)", sW)]

/-! ## Algebra of the Cross-Match Aggregator -/

theorem mps_comm (a b : PlayerStats) :
    merge_player_stats a b = merge_player_stats b a := by
  funext s
  unfold merge_player_stats
  cases a s <;> cases b s <;> simp [add_comm]

theorem mps_left_id (x : PlayerStats) :
    merge_player_stats emptyPlayerStats x = x := by
  funext s
  unfold merge_player_stats emptyPlayerStats
  cases x s <;> simp

theorem mps_right_id (x : PlayerStats) :
    merge_player_stats x emptyPlayerStats = x := by
  funext s
  unfold merge_player_stats emptyPlayerStats
  cases x s <;> simp

theorem mps_assoc (a b c : PlayerStats) :
    merge_player_stats (merge_player_stats a b) c
      = merge_player_stats a (merge_player_stats b c) := by
  funext s
  unfold merge_player_stats
  cases a s <;> cases b s <;> cases c s <;> simp [add_assoc]

theorem mgs_comm (a b : AggStats) :
    merge_game_stats a b = merge_game_stats b a := by
  funext p
  unfold merge_game_stats
  cases a p <;> cases b p <;> simp [mps_comm]

theorem mgs_assoc (a b c : AggStats) :
    merge_game_stats (merge_game_stats a b) c
      = merge_game_stats a (merge_game_stats b c) := by
  funext p
  unfold merge_game_stats
  cases a p <;> cases b p <;> cases c p <;>
    simp [mps_left_id, mps_right_id, mps_assoc]

/-- Claim C3: cross-match aggregation (merge_game_stats) is commutative
and associative on Aggregate Statistics values. -/
theorem c3_merge_comm_assoc (A B C : AggStats) :
    merge_game_stats A B = merge_game_stats B A ∧
    merge_game_stats (merge_game_stats A B) C
      = merge_game_stats A (merge_game_stats B C) :=
  ⟨mgs_comm A B, mgs_assoc A B C⟩

/-- Claim C5: the empty Aggregate Statistics is a two-sided identity for
cross-match aggregation: merging it with any X (on either side) yields X. -/
theorem c5_merge_empty_id (X : AggStats) :
    merge_game_stats emptyAggStats X = X ∧ merge_game_stats X emptyAggStats = X := by
  constructor
  · funext p
    unfold merge_game_stats emptyAggStats
    cases X p <;> simp [mps_left_id]
  · funext p
    unfold merge_game_stats emptyAggStats
    cases X p <;> simp [mps_right_id]

/-! ## Facts about mapOpt -/

theorem mapOpt_length {α β : Type} (f : α → Option β) (l : List α) (l' : List β)
    (h : mapOpt f l = some l') : l'.length = l.length := by
  induction l generalizing l' with
  | nil =>
    simp only [mapOpt] at h
    cases h
    rfl
  | cons a as ih =>
    unfold mapOpt at h
    cases hfa : f a <;> rw [hfa] at h
    · simp at h
    · cases hrec : mapOpt f as <;> rw [hrec] at h
      · simp at h
      · simp only [Option.some.injEq] at h
        subst h
        simp [ih _ hrec]

theorem mapOpt_mem {α β : Type} (f : α → Option β) (l : List α) (l' : List β)
    (h : mapOpt f l = some l') (b : β) (hb : b ∈ l') : ∃ a ∈ l, f a = some b := by
  induction l generalizing l' with
  | nil =>
    simp only [mapOpt] at h
    cases h
    simp at hb
  | cons a as ih =>
    unfold mapOpt at h
    cases hfa : f a <;> rw [hfa] at h
    · simp at h
    · cases hrec : mapOpt f as <;> rw [hrec] at h
      · simp at h
      · simp only [Option.some.injEq] at h
        subst h
        rcases List.mem_cons.mp hb with hb | hb
        · exact ⟨a, List.mem_cons_self a as, by rw [hfa, hb]⟩
        · rcases ih _ hrec hb with ⟨x, hx, hfx⟩
          exact ⟨x, List.mem_cons_of_mem a hx, hfx⟩

theorem mapOpt_isSome {α β : Type} (f : α → Option β) (l : List α)
    (h : ∀ a ∈ l, (f a).isSome) : (mapOpt f l).isSome := by
  induction l with
  | nil => simp [mapOpt]
  | cons a as ih =>
    unfold mapOpt
    cases hfa : f a
    · have := h a (List.mem_cons_self a as)
      rw [hfa] at this
      simp at this
    · have hrec := ih (fun x hx => h x (List.mem_cons_of_mem a hx))
      cases hr : mapOpt f as
      · rw [hr] at hrec
        simp at hrec
      · simp

/-- Claim C4: frame-count conservation.  Whenever the Match Summarizer
succeeds, the counts in any player's Frequency Table for any feature axis
sum to the number of frames of the match. -/
theorem c4_frame_count_conservation (g : Game)
    (S : List (String × List (String × Multiset String)))
    (pk : String) (ps : List (String × Multiset String))
    (ax : String) (c : Multiset String)
    (hS : game_summary g = some S) (hmem : (pk, ps) ∈ S) (hax : (ax, c) ∈ ps) :
    ∑ v ∈ c.toFinset, c.count v = g.frames.length := by
  simp only [game_summary] at hS
  rcases mapOpt_mem _ _ _ hS _ hmem with ⟨ip, _, hF⟩
  cases hch : (ip.2.characters.map Prod.fst).head? <;> rw [hch] at hF
  · simp at hF
  · simp only [Option.some_bind] at hF
    cases hfs : mapOpt (fun f => List.lookup ip.1 f) (g.frames.map handle_frame) <;>
      rw [hfs] at hF
    · simp at hF
    case some frame_stats =>
      simp only [Option.some_bind] at hF
      cases hsum : summarize_player_frames frame_stats <;> rw [hsum] at hF
      · simp at hF
      case some summary =>
        simp only [Option.map_some', Option.some.injEq, Prod.mk.injEq] at hF
        have hps : ps = summary := hF.2.symm ▸ rfl
        subst hps
        cases frame_stats with
        | nil => simp [summarize_player_frames] at hsum
        | cons fs0 rest =>
          unfold summarize_player_frames at hsum
          rcases mapOpt_mem _ _ _ hsum _ hax with ⟨k, _, hG⟩
          cases hv : mapOpt (fun fs => List.lookup k fs) (fs0 :: rest) <;> rw [hv] at hG
          · simp at hG
          case some vals =>
            simp at hG
            have hc : c = (↑vals : Multiset String) := hG.2.symm
            have hlen1 : vals.length = (fs0 :: rest).length := mapOpt_length _ _ _ hv
            have hlen2 : (fs0 :: rest).length = (g.frames.map handle_frame).length :=
              mapOpt_length _ _ _ hfs
            rw [Multiset.toFinset_sum_count_eq, hc]
            simp only [Multiset.coe_card]
            rw [hlen1, hlen2, List.length_map]

/-- Witness for C4 at the concrete two-frame match gW and its
state_group axis. -/
theorem c4_witness :
    ∑ v ∈ ((↑["WAIT", "WAIT"] : Multiset String)).toFinset,
      Multiset.count v ((↑["WAIT", "WAIT"] : Multiset String)) = gW.frames.length :=
  c4_frame_count_conservation gW sumW ("markvan (MARTH)") sW ("state_group")
    ((↑["WAIT", "WAIT"] : Multiset String)) (by decide) (by decide) (by decide)

/-! ## The two error conditions of the Match Summarizer -/

/-- Claim C1 evidence: on a zero-frame match with a present player,
game_summary fails (frame_stats[0] in _summarize_player_frames raises
IndexError) instead of returning empty Frequency Tables. -/
theorem c1_zero_frames_raises : game_summary gZero = none := rfl

/-- Claim C2 evidence: with slots 0 and 2 occupied and slot 1 empty
(consistently in metadata and frames), game_summary fails: the second
present metadata player is paired with frame-dict key 1 (enumerate over
the filtered player list), which is absent (KeyError), instead of with
its own slot key 2. -/
theorem c2_noncontiguous_raises : game_summary gNC = none := rfl

/-! ## String facts about the sentinel values -/

theorem append_ne_str (s t u : String) (hs : s.data ≠ [])
    (hne : s.data.head? ≠ u.data.head?) : s ++ t ≠ u := by
  intro he
  apply hne
  have h2 : s.data ++ t.data = u.data := by
    have h3 := congrArg String.data he
    rwa [String.data_append] at h3
  rcases List.exists_cons_of_ne_nil hs with ⟨c, cs, hcs⟩
  rw [← h2, hcs]
  simp

theorem name_append_ne (b : Button) (t : String) :
    Button.name b ++ t ≠ "(no input)" ∧ Button.name b ++ t ≠ "(not in hitstun)" := by
  cases b <;>
    exact ⟨append_ne_str _ _ _ (by decide) (by decide),
           append_ne_str _ _ _ (by decide) (by decide)⟩

theorem joinComma_names_ne (b : Button) (rest : List Button) :
    joinComma ((b :: rest).map Button.name) ≠ "(no input)" ∧
    joinComma ((b :: rest).map Button.name) ≠ "(not in hitstun)" := by
  have h : joinComma ((b :: rest).map Button.name)
      = Button.name b ++ joinRest (rest.map Button.name) := rfl
  rw [h]
  exact name_append_ne b _

theorem sortButtons_ne_nil (l : List Button) (h : l ≠ []) : sortButtons l ≠ [] := by
  intro hs
  apply h
  have hp := List.perm_insertionSort btnLe l
  unfold sortButtons at hs
  rw [hs] at hp
  exact hp.symm.eq_nil

/-- The buttons extractor never produces the hitstun sentinel. -/
theorem buttonsHandler_ne_hitstun (pd : PortData) :
    buttonsHandler pd ≠ "(not in hitstun)" := by
  unfold buttonsHandler
  cases hp : pd.pre.buttons.pressed with
  | nil => decide
  | cons b bs =>
    show fmt_buttons (b :: bs) ≠ "(not in hitstun)"
    unfold fmt_buttons
    cases hsort : sortButtons (b :: bs) with
    | nil => exact absurd hsort (sortButtons_ne_nil _ (by simp))
    | cons b' rest => simpa [hsort] using (joinComma_names_ne b' rest).2

/-- The buttons extractor produces the no-input sentinel only for an
empty held set. -/
theorem buttonsHandler_ne_noinput (pd : PortData)
    (h : pd.pre.buttons.pressed ≠ []) : buttonsHandler pd ≠ "(no input)" := by
  unfold buttonsHandler
  cases hp : pd.pre.buttons.pressed with
  | nil => exact absurd hp h
  | cons b bs =>
    show fmt_buttons (b :: bs) ≠ "(no input)"
    unfold fmt_buttons
    cases hsort : sortButtons (b :: bs) with
    | nil => exact absurd hsort (sortButtons_ne_nil _ (by simp))
    | cons b' rest => simpa [hsort] using (joinComma_names_ne b' rest).1

/-- Claim C6: the hitstun_buttons extractor agrees with the buttons
extractor exactly when the post stun-duration counter is positive, and
otherwise returns the "(not in hitstun)" sentinel, which no Port Data
record's buttons value can equal. -/
theorem c6_hitstun_buttons (pd : PortData) :
    (hitstunButtonsHandler pd = buttonsHandler pd ↔ 0 < pd.post.hit_stun) ∧
    (¬ 0 < pd.post.hit_stun → hitstunButtonsHandler pd = "(not in hitstun)") ∧
    (∀ q : PortData, buttonsHandler q ≠ "(not in hitstun)") := by
  refine ⟨?_, ?_, fun q => buttonsHandler_ne_hitstun q⟩
  · unfold hitstunButtonsHandler
    by_cases h : pd.post.hit_stun > 0
    · simp [h]
    · simp only [if_neg h]
      constructor
      · intro he
        exact absurd he.symm (buttonsHandler_ne_hitstun pd)
      · intro hpos
        exact absurd hpos h
  · intro h
    unfold hitstunButtonsHandler
    simp [h]

/-- Witness for C6: the stunned sample record reports its buttons value,
the unstunned one reports the sentinel. -/
theorem c6_witness :
    hitstunButtonsHandler pdDashStun = buttonsHandler pdDashStun ∧
    hitstunButtonsHandler pdWait = "(not in hitstun)" :=
  ⟨(c6_hitstun_buttons pdDashStun).1.mpr (by decide),
   (c6_hitstun_buttons pdWait).2.1 (by decide)⟩

/-! ## The state-group partition -/

/-- Claim C7: the state_group extractor returns the label of the unique
STATE_GROUPS group containing the post state (the groups are pairwise
disjoint), "OTHER" exactly when no group contains it, and any label other
than "OTHER" comes from a group member. -/
theorem c7_state_group (pd : PortData) :
    (∀ g ∈ STATE_GROUPS, ∀ g' ∈ STATE_GROUPS,
      ∀ s : ActionState, s ∈ g.1 → s ∈ g'.1 → g = g') ∧
    (∀ g ∈ STATE_GROUPS, pd.post.state ∈ g.1 → stateGroupHandler pd = g.2) ∧
    ((∀ g ∈ STATE_GROUPS, pd.post.state ∉ g.1) → stateGroupHandler pd = "OTHER") ∧
    (stateGroupHandler pd ≠ "OTHER" →
      ∃ g ∈ STATE_GROUPS, pd.post.state ∈ g.1 ∧ stateGroupHandler pd = g.2) := by
  refine ⟨?_, ?_, ?_, ?_⟩
  · intro g hg g' hg' s hs hs'
    simp only [STATE_GROUPS, List.mem_cons, List.not_mem_nil, or_false] at hg hg'
    rcases hg with rfl | rfl | rfl <;> rcases hg' with rfl | rfl | rfl <;>
      (try rfl) <;> cases s <;> simp_all
  · intro g hg hs
    unfold stateGroupHandler
    simp only [STATE_GROUPS, List.mem_cons, List.not_mem_nil, or_false] at hg
    rcases hg with rfl | rfl | rfl <;> cases hstate : pd.post.state <;>
      rw [hstate] at hs <;> first
      | exact absurd hs (by decide)
      | decide
      | simp at hs
  · intro h
    unfold stateGroupHandler
    cases hstate : pd.post.state
    case WAIT =>
      exact absurd (by rw [hstate]; decide)
        (h ([.WAIT, .SQUAT_WAIT], "WAIT") (by decide))
    case SQUAT_WAIT =>
      exact absurd (by rw [hstate]; decide)
        (h ([.WAIT, .SQUAT_WAIT], "WAIT") (by decide))
    case WALK_SLOW =>
      exact absurd (by rw [hstate]; decide)
        (h ([.WALK_FAST, .WALK_MIDDLE, .WALK_SLOW], "WALK") (by decide))
    case WALK_MIDDLE =>
      exact absurd (by rw [hstate]; decide)
        (h ([.WALK_FAST, .WALK_MIDDLE, .WALK_SLOW], "WALK") (by decide))
    case WALK_FAST =>
      exact absurd (by rw [hstate]; decide)
        (h ([.WALK_FAST, .WALK_MIDDLE, .WALK_SLOW], "WALK") (by decide))
    case DASH =>
      exact absurd (by rw [hstate]; decide) (h ([.DASH], "DASH") (by decide))
    case otherState nm =>
      simp [stateGroupLoop, STATE_GROUPS]
  · intro hne
    unfold stateGroupHandler at hne ⊢
    cases hstate : pd.post.state <;> rw [hstate] at hne
    case WAIT =>
      exact ⟨([.WAIT, .SQUAT_WAIT], "WAIT"), by decide, by decide, by decide⟩
    case SQUAT_WAIT =>
      exact ⟨([.WAIT, .SQUAT_WAIT], "WAIT"), by decide, by decide, by decide⟩
    case WALK_SLOW =>
      exact ⟨([.WALK_FAST, .WALK_MIDDLE, .WALK_SLOW], "WALK"), by decide, by decide, by decide⟩
    case WALK_MIDDLE =>
      exact ⟨([.WALK_FAST, .WALK_MIDDLE, .WALK_SLOW], "WALK"), by decide, by decide, by decide⟩
    case WALK_FAST =>
      exact ⟨([.WALK_FAST, .WALK_MIDDLE, .WALK_SLOW], "WALK"), by decide, by decide, by decide⟩
    case DASH =>
      exact ⟨([.DASH], "DASH"), by decide, by decide, by decide⟩
    case otherState nm =>
      exact absurd (by simp [stateGroupLoop, STATE_GROUPS]) hne

/-- Witness for C7: the DASH sample lands in the DASH group; an unmapped
state yields OTHER. -/
theorem c7_witness :
    stateGroupHandler pdDashStun = "DASH" :=
  (c7_state_group pdDashStun).2.1 ([.DASH], "DASH") (by decide) (by decide)

/-! ## The buttons extractor -/

theorem mem_allButtons (b : Button) : b ∈ allButtons := by cases b <;> decide

theorem pressed_nodup (bs : ButtonsState) : bs.pressed.Nodup :=
  List.Nodup.filter _ (by decide)

theorem mem_pressed (bs : ButtonsState) (b : Button) :
    b ∈ bs.pressed ↔ bs.physical b = true := by
  unfold ButtonsState.pressed
  rw [List.mem_filter]
  simp [mem_allButtons b]

/-- Claim C8: the buttons extractor renders the held-button set as the
comma-join of button names in ascending bitmask order, without
duplicates; an empty held set gives the "(no input)" sentinel, which no
non-empty held set can produce. -/
theorem c8_buttons (pd : PortData) :
    (pd.pre.buttons.pressed = [] → buttonsHandler pd = "(no input)") ∧
    (pd.pre.buttons.pressed ≠ [] →
      ∃ bs : List Button, List.Perm bs pd.pre.buttons.pressed ∧
        List.Sorted btnLe bs ∧ bs.Nodup ∧
        (∀ b : Button, b ∈ bs ↔ pd.pre.buttons.physical b = true) ∧
        buttonsHandler pd = joinComma (bs.map Button.name) ∧
        buttonsHandler pd ≠ "(no input)") := by
  constructor
  · intro h
    unfold buttonsHandler
    rw [h]
    rfl
  · intro h
    refine ⟨sortButtons pd.pre.buttons.pressed,
      List.perm_insertionSort btnLe _, List.sorted_insertionSort btnLe _, ?_, ?_, ?_, ?_⟩
    · exact ((List.perm_insertionSort btnLe _).nodup_iff).mpr (pressed_nodup _)
    · intro b
      unfold sortButtons
      rw [(List.perm_insertionSort btnLe _).mem_iff]
      exact mem_pressed _ b
    · unfold buttonsHandler
      cases hp : pd.pre.buttons.pressed with
      | nil => exact absurd hp h
      | cons x xs => rw [← hp]; unfold fmt_buttons; rw [hp]
    · exact buttonsHandler_ne_noinput pd h

/-- Witness for C8: the A-and-L sample renders as "L,A" (ascending
bitmask order), and the no-input sample gives the sentinel. -/
theorem c8_witness :
    buttonsHandler pdWait = "(no input)" ∧ buttonsHandler pdDashStun ≠ "(no input)" := by
  refine ⟨(c8_buttons pdWait).1 (by decide), ?_⟩
  obtain ⟨bs, _, _, _, _, _, hne⟩ := (c8_buttons pdDashStun).2 (by decide)
  exact hne

/-! ## The Reporter -/

theorem mem_firstSeenAux (seen l : List String) (a : String) :
    a ∈ firstSeenAux seen l ↔ a ∈ l ∧ a ∉ seen := by
  induction l generalizing seen with
  | nil => simp [firstSeenAux]
  | cons x xs ih =>
    unfold firstSeenAux
    by_cases hx : x ∈ seen
    · rw [if_pos hx, ih]
      constructor
      · rintro ⟨hm, hn⟩
        exact ⟨List.mem_cons_of_mem x hm, hn⟩
      · rintro ⟨hm, hn⟩
        rcases List.mem_cons.mp hm with rfl | hm'
        · exact absurd hx hn
        · exact ⟨hm', hn⟩
    · rw [if_neg hx]
      constructor
      · intro hmem
        rcases List.mem_cons.mp hmem with rfl | hm'
        · exact ⟨List.mem_cons_self a xs, hx⟩
        · rcases (ih (x :: seen)).mp hm' with ⟨hm2, hn2⟩
          exact ⟨List.mem_cons_of_mem x hm2, fun hs => hn2 (List.mem_cons_of_mem x hs)⟩
      · rintro ⟨hm, hn⟩
        rcases List.mem_cons.mp hm with rfl | hm'
        · exact List.mem_cons_self a _
        · by_cases hax : a = x
          · subst hax
            exact List.mem_cons_self a _
          · refine List.mem_cons_of_mem x ((ih (x :: seen)).mpr ⟨hm', ?_⟩)
            intro hs
            rcases List.mem_cons.mp hs with h1 | h2
            · exact hax h1
            · exact hn h2

theorem nodup_firstSeenAux (seen l : List String) : (firstSeenAux seen l).Nodup := by
  induction l generalizing seen with
  | nil => simp [firstSeenAux]
  | cons x xs ih =>
    unfold firstSeenAux
    by_cases hx : x ∈ seen
    · rw [if_pos hx]
      exact ih seen
    · rw [if_neg hx]
      refine List.nodup_cons.mpr ⟨?_, ih (x :: seen)⟩
      intro hmem
      exact ((mem_firstSeenAux _ _ _).mp hmem).2 (List.mem_cons_self x seen)

theorem firstSeen_perm_dedup (l : List String) : List.Perm (firstSeen l) l.dedup := by
  refine (List.perm_ext_iff_of_nodup (nodup_firstSeenAux [] l) (List.nodup_dedup l)).2 ?_
  intro a
  rw [List.mem_dedup]
  rw [mem_firstSeenAux]
  simp

/-- sum(counter.values()) over a Counter built from the observation list
l is the length of l. -/
theorem counterItems_total (l : List String) :
    ((counterItems l).map Prod.snd).sum = l.length := by
  unfold counterItems
  rw [List.map_map]
  have hperm := (firstSeen_perm_dedup l).map (fun k => l.count k)
  calc ((firstSeen l).map (Prod.snd ∘ fun k => (k, l.count k))).sum
      = ((firstSeen l).map (fun k => l.count k)).sum := rfl
    _ = (l.dedup.map (fun k => l.count k)).sum := hperm.sum_eq
    _ = l.length := List.sum_map_count_dedup_eq_length l

/-- Claim C9: the Reporter's per-axis rendering never divides by zero:
for every Frequency Table (presented by its list of counted
observations) the percentage lines are produced without a
ZeroDivisionError, the zero-total (empty) table giving no lines at all. -/
theorem c9_no_division_by_zero (counter : List String) :
    (print_counter_lines counter).isSome := by
  unfold print_counter_lines
  apply mapOpt_isSome
  intro it hit
  have hmc : it ∈ mostCommon counter := List.mem_of_mem_take hit
  have hitems : it ∈ counterItems counter := by
    unfold mostCommon at hmc
    exact (List.perm_insertionSort _ _).subset hmc
  have hk : it.1 ∈ counter := by
    unfold counterItems at hitems
    rcases List.mem_map.mp hitems with ⟨k, hk1, hk2⟩
    have hkc : k ∈ counter := ((mem_firstSeenAux [] counter k).mp hk1).1
    have hfst : it.1 = k := by rw [← hk2]
    rw [hfst]
    exact hkc
  have htot : ((counterItems counter).map Prod.snd).sum = counter.length :=
    counterItems_total counter
  have hne : ((counterItems counter).map Prod.snd).sum ≠ 0 := by
    rw [htot]
    exact Nat.pos_iff_ne_zero.mp (List.length_pos.mpr (List.ne_nil_of_mem hk))
  simp [hne]

/-! ## The batch driver -/

/-- Claim C10: load_all draws from at most the first five globbed paths:
every yielded game loads from one of the first five paths, at most five
games are yielded, and paths beyond the fifth never affect the result. -/
theorem c10_load_all_first_five (paths : List String) (ld : String → Option Game) :
    (∀ g ∈ load_all paths ld, ∃ p ∈ paths.take 5, ld p = some g) ∧
    (load_all paths ld).length ≤ 5 ∧
    (∀ rest : List String, 5 ≤ paths.length →
      load_all (paths ++ rest) ld = load_all paths ld) := by
  refine ⟨?_, ?_, ?_⟩
  · intro g hg
    exact List.mem_filterMap.mp hg
  · calc (load_all paths ld).length ≤ (paths.take 5).length :=
        List.length_filterMap_le ld (paths.take 5)
      _ ≤ 5 := by
        rw [List.length_take]
        exact min_le_left 5 paths.length
  · intro rest h
    unfold load_all
    rw [List.take_append_of_le_length h]

/-- Witness for C10: with five paths, appending a sixth changes nothing. -/
theorem c10_witness :
    load_all (["a", "b", "c", "d", "e"] ++ ["f"]) (fun _ => some gW)
      = load_all (["a", "b", "c", "d", "e"]) (fun _ => some gW) :=
  (c10_load_all_first_five (["a", "b", "c", "d", "e"]) (fun _ => some gW)).2.2
    (["f"]) (by decide)
